import Mathlib

/-
  Verification of the bulk-dispatch core of the whatsapp-sender program
  (src/main.py), by a shallow embedding of its pure logic into Lean.

  Strings are modelled as `List Char`; a Python string method is modelled
  by an explicit Lean function on `List Char`.
-/

namespace WaSender

/-! ## Recipient normalizer (`validate_numbers`, src/main.py:1027-1067) -/

/-- ASCII whitespace stripped by Python `str.strip()`. -/
def isPySpace (c : Char) : Bool :=
  c = ' ' || c = '\t' || c = '\n' || c = '\r' || c = '\x0b' || c = '\x0c'

/-- Python `str.strip()`: drop leading and trailing whitespace. -/
def pyStrip (s : List Char) : List Char :=
  ((s.dropWhile isPySpace).reverse.dropWhile isPySpace).reverse

/-- Reason codes for invalid recipients; one per `invalid.append` branch of
`validate_numbers`.  `ambiguousCountry` is the "10 digits starting with 91 -
likely missing digit" branch (the spec calls it `ambiguous_country_prefix`);
`tooLong` covers both "too long: N digits" and "N digits without 91". -/
inductive Reason where
  | noDigits
  | ambiguousCountry
  | tooLong
  | tooShort
deriving DecidableEq, Repr

/-- What `validate_numbers` does with one comma-delimited token. -/
inductive TokenResult where
  | skipped
  | valid (n : List Char)
  | invalid (raw : List Char) (r : Reason)
deriving DecidableEq, Repr

/-- Python `cleaned.startswith('91')`. -/
def startsWith91 (s : List Char) : Bool :=
  s.take 2 = ['9', '1']

/-- The per-token body of the `for num in numbers_str.split(',')` loop of
`validate_numbers`: strip, drop empty tokens, keep only digits, then the
91-prefix / length case analysis, verbatim from the source. -/
def classifyToken (num : List Char) : TokenResult :=
  let original := pyStrip num
  if original = [] then .skipped
  else
    let cleaned := original.filter Char.isDigit
    if cleaned = [] then .invalid original .noDigits
    else if startsWith91 cleaned then
      if cleaned.length = 12 then .valid cleaned
      else if cleaned.length = 10 then .invalid original .ambiguousCountry
      else if cleaned.length > 12 then .invalid original .tooLong
      else .invalid original .tooShort
    else
      if cleaned.length = 10 then .valid ('9' :: '1' :: cleaned)
      else if cleaned.length > 10 then .invalid original .tooLong
      else .invalid original .tooShort

/-- `validate_numbers` over the already-split token list: builds the
`numbers` and `invalid` lists in input order. -/
def validate_numbers : List (List Char) → List (List Char) × List (List Char × Reason)
  | [] => ([], [])
  | t :: rest =>
    let r := validate_numbers rest
    match classifyToken t with
    | .skipped => r
    | .valid n => (n :: r.1, r.2)
    | .invalid raw reason => (r.1, (raw, reason) :: r.2)

/-- Python `s.split(',')`: always returns one more token than there are
commas; empty tokens are kept (`"".split(',') == [""]`). -/
def splitComma : List Char → List (List Char)
  | [] => [[]]
  | c :: cs =>
    if c = ',' then [] :: splitComma cs
    else
      match splitComma cs with
      | [] => [[c]]
      | t :: ts => (c :: t) :: ts

/-- Python `",".join(tokens)`. -/
def joinComma : List (List Char) → List Char
  | [] => []
  | [v] => v
  | v :: w :: vs => v ++ ',' :: joinComma (w :: vs)

/-- `validate_numbers` as called in the source: on the raw text box string. -/
def validate_numbers_str (s : List Char) : List (List Char) × List (List Char × Reason) :=
  validate_numbers (splitComma s)

/-! ## Per-recipient send with retry (`send_via_wa_me`, src/main.py:1879-1918)

The attempt loop `for attempt in range(1, max_tries + 1)` either returns
success at some attempt, or retries while `attempt < max_tries`, or gives up
returning failure at `attempt == max_tries`.  Each attempt's result is
abstracted to a `Bool` (`ok attempt`): every failure kind of the source
(timeout, send exception, browser error, unexpected error) behaves the same
way with respect to retrying.  The model returns the success flag together
with the number of attempts performed. -/

/-- The attempt loop, with `left` remaining iterations including the current
one (`attempt < max_tries` iff `left > 1`). -/
def sendGo (ok : Nat → Bool) : Nat → Nat → Bool × Nat
  | attempt, 0 => (false, attempt - 1)
  | attempt, left + 1 =>
    if ok attempt then (true, attempt)
    else if left = 0 then (false, attempt)
    else sendGo ok (attempt + 1) left

/-- `send_via_wa_me`: result flag and number of attempts performed.  With
`max_tries = 0` the Python loop body never runs and the trailing
`return False, "All attempts failed"` is reached with 0 attempts. -/
def send_via_wa_me (tries : Nat) (ok : Nat → Bool) : Bool × Nat :=
  match tries with
  | 0 => (false, 0)
  | t + 1 => sendGo ok 1 (t + 1)

/-! ## The dispatch loop (`send_messages_thread`, src/main.py:1628-1727)

State and events.  Each read of the `stop_requested` flag is a checkpoint;
reads consume successive indices of an abstract flag trace
`stop : Nat → Bool` (the flag is written asynchronously by `stop_sending`,
so the value seen at each read is an input of the model).  Reads happen, in
order: at the top of the loop for each recipient, in the short-circuit
`idx < len(numbers) and not self.stop_requested` guard before the delay, at
each 1-second tick of the delay loop, and once more after the loop to pick
the terminal outcome. -/

/-- Counter snapshots pushed to the UI:
`processed` is the `processed_value.config` update emitted right after
`self.processed_count = idx` (together with the percent bar update);
`succeeded` / `failed` are the `success_value` / `failed_value` updates
emitted right after the corresponding counter increment. -/
inductive ProgressEvent where
  | processed (p s f : Nat)
  | succeeded (p s f : Nat)
  | failed (p s f : Nat)
deriving DecidableEq, Repr

/-- Mutable state of the sending thread that the claims talk about:
the three counters, the emitted progress events, the CSV ledger rows
(`append_sent_log`: recipient index, status OK/FAILED), and for each
inter-send delay entered, the number of 1-second sleeps it performed. -/
structure St where
  processed : Nat
  succ : Nat
  fail : Nat
  events : List ProgressEvent
  ledger : List (Nat × Bool)
  sleeps : List Nat
deriving DecidableEq, Repr

/-- The empty initial state set up by `start_sending`. -/
def St.init : St := ⟨0, 0, 0, [], [], []⟩

/-- Terminal outcome of the thread's main path: `sending_complete(True)`
(all recipients processed, flag never seen) versus `sending_complete(False)`
after a stop (the spec's `Cancelled`). -/
inductive Terminal where
  | completed
  | cancelled
deriving DecidableEq, Repr

/-- Final state plus terminal outcome. -/
structure RunOut extends St where
  terminal : Terminal
deriving DecidableEq, Repr

/-- The inter-send delay `for i in range(delay_between): if stop_requested:
break; time.sleep(1)`: returns the number of sleeps performed and the next
read index. -/
def delayTicks (stop : Nat → Bool) : Nat → Nat → Nat × Nat
  | k, 0 => (0, k)
  | k, d + 1 =>
    if stop k then (0, k + 1)
    else
      let r := delayTicks stop (k + 1) d
      (r.1 + 1, r.2)

/-- The `if not self.stop_requested: sending_complete(True) else:
sending_complete(False)` read after the loop exits. -/
def finish (stop : Nat → Bool) (st : St) (k : Nat) : RunOut :=
  { toSt := st, terminal := if stop k then .cancelled else .completed }

/-- The body of one loop iteration after the top-of-loop stop check, up to
and including the ledger append: `processed_count = idx` plus its progress
event, the send with retries, the counter increment plus its progress
event, and the `append_sent_log` row. -/
def stepSt (tries : Nat) (ok : Nat → Nat → Bool) (idx : Nat) (st : St) : St :=
  if (send_via_wa_me tries (ok idx)).1 then
    { processed := idx, succ := st.succ + 1, fail := st.fail,
      events := st.events ++
        [.processed idx st.succ st.fail,
         .succeeded idx (st.succ + 1) st.fail],
      ledger := st.ledger ++ [(idx, true)], sleeps := st.sleeps }
  else
    { processed := idx, succ := st.succ, fail := st.fail + 1,
      events := st.events ++
        [.processed idx st.succ st.fail,
         .failed idx st.succ (st.fail + 1)],
      ledger := st.ledger ++ [(idx, false)], sleeps := st.sleeps }

/-- One pass of the `for idx, number in enumerate(numbers, start=1)` loop:
`rem` recipients remain, the current one is `idx`, `k` is the next read
index.  Top-of-loop stop check, then the iteration body `stepSt`, and (when
`idx < total` and the flag is not seen) the cancellable delay. -/
def goRun (tries : Nat) (ok : Nat → Nat → Bool) (d : Nat) (total : Nat)
    (stop : Nat → Bool) : Nat → Nat → Nat → St → RunOut
  | 0, _, k, st => finish stop st k
  | rem + 1, idx, k, st =>
    if stop k then finish stop st (k + 1)
    else
      let st2 := stepSt tries ok idx st
      if idx < total then
        if stop (k + 1) then goRun tries ok d total stop rem (idx + 1) (k + 2) st2
        else
          let dr := delayTicks stop (k + 2) d
          goRun tries ok d total stop rem (idx + 1) dr.2
            { st2 with sleeps := st2.sleeps ++ [dr.1] }
      else goRun tries ok d total stop rem (idx + 1) (k + 1) st2

/-- The whole sending phase of `send_messages_thread` over `total` valid
recipients (attempt results `ok recipient attempt`, delay `d`,
retry budget `tries`, flag trace `stop`). -/
def runModel (tries : Nat) (ok : Nat → Nat → Bool) (d : Nat)
    (stop : Nat → Bool) (total : Nat) : RunOut :=
  goRun tries ok d total stop total 1 0 St.init

/-- A flag trace that is never set. -/
def stopNever : Nat → Bool := fun _ => false

/-- A monotone flag trace: false strictly before read `T`, true from read
`T` on (the flag is set once and never cleared during a run). -/
def stopAfter (T : Nat) : Nat → Bool := fun k => decide (T ≤ k)

/-! ## Run summaries (`save_session_stats`, src/main.py:1920-1953, and the
terminal branch of `sending_complete`, src/main.py:1738-1781) -/

/-- The summary object written by `save_session_stats`.  The wall-clock
`timestamp` and the float-formatted `success_rate` string are abstracted
away (their values never matter to the claims); the counter fields are kept
verbatim. -/
structure SessionStats where
  total : Nat
  processed : Nat
  successful : Nat
  failed : Nat
deriving DecidableEq, Repr

/-- The pure core of `save_session_stats`: `history.append(stats)` followed
by `history = history[-50:]` (Python `l[-50:]` keeps the last 50 elements).
File I/O and the recovery to `[]` on a missing or corrupt file are outside
the model; `hist` is whatever list was loaded. -/
def save_session_stats (stats : SessionStats) (hist : List SessionStats) :
    List SessionStats :=
  let h := hist ++ [stats]
  h.drop (h.length - 50)

/-- What `sending_complete(success)` does to the summary history: only the
`if success:` branch calls `save_session_stats()`; the `else:` branch (stop
or failure) does not touch it.  `success` is `terminal = completed`. -/
def finalizeRun (r : RunOut) (stats : SessionStats) (hist : List SessionStats) :
    List SessionStats :=
  if r.terminal = .completed then save_session_stats stats hist else hist

/-! ## Controller guards (`start_sending`, src/main.py:1548-1627 and
`test_send`, src/main.py:1394-1460) -/

/-- The mutable fields of the application object that `start_sending` /
`test_send` touch before spawning the worker thread. -/
structure UiState where
  sending : Bool
  stop_requested : Bool
  processed_count : Nat
  total_count : Nat
  success_count : Nat
  failed_count : Nat
deriving DecidableEq, Repr

/-- How a start command resolves. -/
inductive StartOutcome where
  | alreadyActive
  | emptyMessage
  | emptyNumbers
  | declinedInvalid
  | noValid
  | declinedConfirm
  | started
deriving DecidableEq, Repr

/-- `start_sending` up to the spawn of `send_messages_thread`: the
`if self.sending: return` guard comes first; then the empty-message and
empty-numbers early returns, validation, the confirm-with-invalid dialog
(`proceedInvalid`), the no-valid-numbers check, the final confirm dialog
(`confirmStart`), and only then the counter reset and `sending = True`. -/
def start_sending (st : UiState) (message numbers_str : List Char)
    (proceedInvalid confirmStart : Bool) : UiState × StartOutcome :=
  if st.sending then (st, .alreadyActive)
  else if pyStrip message = [] then (st, .emptyMessage)
  else if pyStrip numbers_str = [] then (st, .emptyNumbers)
  else
    let v := validate_numbers_str (pyStrip numbers_str)
    if v.2 ≠ [] ∧ proceedInvalid = false then (st, .declinedInvalid)
    else if v.1 = [] then (st, .noValid)
    else if confirmStart = false then (st, .declinedConfirm)
    else
      ({ sending := true, stop_requested := false, processed_count := 0,
         total_count := v.1.length, success_count := 0, failed_count := 0 },
       .started)

/-- `test_send` up to the spawn of `test_send_thread`: same leading
`if self.sending: return` guard; then empty-message, empty-numbers,
no-valid-numbers checks and the confirm dialog, after which the counters are
set up for a single-recipient run. -/
def test_send (st : UiState) (message numbers_str : List Char)
    (confirmTest : Bool) : UiState × StartOutcome :=
  if st.sending then (st, .alreadyActive)
  else if pyStrip message = [] then (st, .emptyMessage)
  else if pyStrip numbers_str = [] then (st, .emptyNumbers)
  else
    let v := validate_numbers_str (pyStrip numbers_str)
    if v.1 = [] then (st, .noValid)
    else if confirmTest = false then (st, .declinedConfirm)
    else
      ({ sending := true, stop_requested := false, processed_count := 0,
         total_count := 1, success_count := 0, failed_count := 0 },
       .started)

/-! ## Predicates and fixtures used by the theorems -/

/-- The per-event counter relation that the code actually maintains: the
processed-counter update is pushed before the attempt, so it runs one ahead
of succeeded + failed; the succeeded / failed updates are pushed after the
outcome, where the counters balance. -/
def eventBalance : ProgressEvent → Prop
  | .processed p s f => p = s + f + 1
  | .succeeded p s f => p = s + f
  | .failed p s f => p = s + f

/-- Shape of every valid output of `validate_numbers`: 12 digits starting
with "91". -/
def GoodNum (v : List Char) : Prop :=
  (∀ c ∈ v, c.isDigit = true) ∧ v.length = 12 ∧ v.take 2 = ['9', '1']

/-- All attempts succeed. -/
def okTrue : Nat → Nat → Bool := fun _ _ => true

/-- Send results in which recipient 2 always fails and the rest succeed. -/
def okW : Nat → Nat → Bool := fun j _ => decide (j ≠ 2)

example :
    validate_numbers_str ("9876543210, 919876543211, 9140669674").data =
      ([("919876543210").data, ("919876543211").data],
       [(("9140669674").data, .ambiguousCountry)]) := by decide

example :
    runModel 1 (fun _ _ => true) 0 stopNever 1 =
      { processed := 1, succ := 1, fail := 0,
        events := [.processed 1 0 0, .succeeded 1 1 0],
        ledger := [(1, true)], sleeps := [], terminal := .completed } := by
  decide

example :
    runModel 2 okW 2 stopNever 3 =
      { processed := 3, succ := 2, fail := 1,
        events := [.processed 1 0 0, .succeeded 1 1 0,
                   .processed 2 1 0, .failed 2 1 1,
                   .processed 3 1 1, .succeeded 3 2 1],
        ledger := [(1, true), (2, false), (3, true)], sleeps := [2, 2],
        terminal := .completed } := by decide

/-! ## Helper lemmas -/

theorem dropWhile_eq_self_of (p : Char → Bool) (l : List Char)
    (h : ∀ c ∈ l, p c = false) : l.dropWhile p = l := by
  cases l with
  | nil => rfl
  | cons a as =>
    rw [List.dropWhile_cons]
    simp [h a (List.mem_cons_self a as)]

theorem isPySpace_not_digit (c : Char) (h : isPySpace c = true) :
    c.isDigit = false := by
  simp only [isPySpace, Bool.or_eq_true, decide_eq_true_eq] at h
  rcases h with ((((h | h) | h) | h) | h) | h <;> subst h <;> decide

theorem pyStrip_eq_self (v : List Char) (h : ∀ c ∈ v, isPySpace c = false) :
    pyStrip v = v := by
  unfold pyStrip
  rw [dropWhile_eq_self_of _ _ h,
    dropWhile_eq_self_of _ _ (fun c hc => h c (List.mem_reverse.1 hc)),
    List.reverse_reverse]

/-! ## Claim theorems -/

/-- Claim C2: a token whose digit string has length exactly 10 and starts
with "91" is classified invalid with the ambiguous-country-prefix reason and
is never added to the valid list; and on the spec's end-to-end example input
the valid output is exactly ["919876543210", "919876543211"] and the
invalid output is exactly the one ambiguous entry for "9140669674". -/
theorem claim_C2 :
    (∀ tok : List Char,
      ((pyStrip tok).filter Char.isDigit).length = 10 →
      startsWith91 ((pyStrip tok).filter Char.isDigit) = true →
      classifyToken tok = .invalid (pyStrip tok) .ambiguousCountry) ∧
    validate_numbers_str ("9876543210, 919876543211, 9140669674").data =
      ([("919876543210").data, ("919876543211").data],
       [(("9140669674").data, .ambiguousCountry)]) := by
  constructor
  · intro tok hlen hpre
    have hne : ¬(pyStrip tok = []) := by
      intro h; rw [h] at hlen; simp at hlen
    have hcne : ¬((pyStrip tok).filter Char.isDigit = []) := by
      intro h; rw [h] at hlen; simp at hlen
    simp [classifyToken, hne, hcne, hpre, hlen]
  · decide

/-- Witness for C2 at the concrete token " 9140669674". -/
theorem claim_C2_witness :
    classifyToken (" 9140669674").data =
      TokenResult.invalid (pyStrip (" 9140669674").data) Reason.ambiguousCountry :=
  claim_C2.1 (" 9140669674").data (by decide) (by decide)

/-- Claim C3: a token with at least one digit whose digit string does not
start with "91" and has length exactly 10 is normalized to the valid
recipient "91" ++ digits. -/
theorem claim_C3 (tok : List Char)
    (h1 : (pyStrip tok).filter Char.isDigit ≠ [])
    (h2 : startsWith91 ((pyStrip tok).filter Char.isDigit) = false)
    (h3 : ((pyStrip tok).filter Char.isDigit).length = 10) :
    classifyToken tok =
      .valid ('9' :: '1' :: (pyStrip tok).filter Char.isDigit) := by
  have hne : ¬(pyStrip tok = []) := by
    intro h; rw [h] at h1; simp at h1
  simp [classifyToken, hne, h1, h2, h3]

/-- Witness for C3 at the concrete token "98-7654 3210". -/
theorem claim_C3_witness :
    classifyToken ("98-7654 3210").data =
      TokenResult.valid
        ('9' :: '1' :: (pyStrip ("98-7654 3210").data).filter Char.isDigit) :=
  claim_C3 ("98-7654 3210").data (by decide) (by decide) (by decide)

/-- Claim C8: after every append the summary history has at most 50
entries; its length is min (previous length + 1) 50 and it is a suffix of
the appended list, i.e. the retained entries are exactly the most recent
ones in order (oldest evicted first). -/
theorem claim_C8 (hist : List SessionStats) (s : SessionStats) :
    (save_session_stats s hist).length ≤ 50 ∧
    (save_session_stats s hist).length = min (hist.length + 1) 50 ∧
    List.IsSuffix (save_session_stats s hist) (hist ++ [s]) := by
  unfold save_session_stats
  refine ⟨?_, ?_, List.drop_suffix _ _⟩
  · simp only [List.length_drop, List.length_append, List.length_singleton]
    omega
  · simp only [List.length_drop, List.length_append, List.length_singleton]
    omega

/-- Claim C9: while a Run is active (`sending` is set), both
`start_sending` and `test_send` return at once with the state, and in
particular every counter, unchanged. -/
theorem claim_C9 (st : UiState) (msg nums : List Char) (p c t : Bool)
    (h : st.sending = true) :
    start_sending st msg nums p c = (st, .alreadyActive) ∧
    test_send st msg nums t = (st, .alreadyActive) := by
  unfold start_sending test_send
  simp [h]

/-- Witness for C9 at a concrete active state. -/
theorem claim_C9_witness :
    start_sending ⟨true, false, 3, 5, 2, 1⟩ [] [] true true =
        (⟨true, false, 3, 5, 2, 1⟩, .alreadyActive) ∧
      test_send ⟨true, false, 3, 5, 2, 1⟩ [] [] true =
        (⟨true, false, 3, 5, 2, 1⟩, .alreadyActive) :=
  claim_C9 ⟨true, false, 3, 5, 2, 1⟩ [] [] true true true rfl

theorem classifyToken_skipped_iff (t : List Char) :
    classifyToken t = .skipped ↔ pyStrip t = [] := by
  simp only [classifyToken]
  split_ifs <;> simp_all

theorem validate_counts (toks : List (List Char)) :
    (validate_numbers toks).1.length + (validate_numbers toks).2.length =
      toks.countP (fun t => !(pyStrip t).isEmpty) := by
  induction toks with
  | nil => rfl
  | cons t rest ih =>
    rw [List.countP_cons]
    cases h : classifyToken t with
    | skipped =>
      have hs : pyStrip t = [] := (classifyToken_skipped_iff t).1 h
      simp only [validate_numbers, h]
      simp [hs, ih]
    | valid n =>
      have hs : pyStrip t ≠ [] := by
        intro he
        rw [(classifyToken_skipped_iff t).2 he] at h
        cases h
      simp only [validate_numbers, h]
      simp only [List.length_cons, List.isEmpty_iff]
      simp [hs]
      omega
    | invalid raw r =>
      have hs : pyStrip t ≠ [] := by
        intro he
        rw [(classifyToken_skipped_iff t).2 he] at h
        cases h
      simp only [validate_numbers, h]
      simp only [List.length_cons, List.isEmpty_iff]
      simp [hs]
      omega

/-- Claim C10: normalization partitions its input: the number of valid
outputs plus the number of invalid outputs equals the number of
comma-delimited tokens that are non-empty after trimming; no token is
dropped or double-counted. -/
theorem claim_C10 (s : List Char) :
    (validate_numbers_str s).1.length + (validate_numbers_str s).2.length =
      (splitComma s).countP (fun t => !(pyStrip t).isEmpty) :=
  validate_counts (splitComma s)

theorem stepSt_processed (tries : Nat) (ok : Nat → Nat → Bool) (idx : Nat)
    (st : St) : (stepSt tries ok idx st).processed = idx := by
  unfold stepSt
  split <;> rfl

theorem stepSt_succ_fail (tries : Nat) (ok : Nat → Nat → Bool) (idx : Nat)
    (st : St) :
    (stepSt tries ok idx st).succ + (stepSt tries ok idx st).fail =
      st.succ + st.fail + 1 := by
  unfold stepSt
  split <;> simp <;> omega

theorem stepSt_ledger (tries : Nat) (ok : Nat → Nat → Bool) (idx : Nat)
    (st : St) :
    (stepSt tries ok idx st).ledger =
      st.ledger ++ [(idx, (send_via_wa_me tries (ok idx)).1)] := by
  unfold stepSt
  cases h : (send_via_wa_me tries (ok idx)).1 <;> simp [h]

theorem stepSt_sleeps (tries : Nat) (ok : Nat → Nat → Bool) (idx : Nat)
    (st : St) : (stepSt tries ok idx st).sleeps = st.sleeps := by
  unfold stepSt
  split <;> rfl

theorem stepSt_events_ok (tries : Nat) (ok : Nat → Nat → Bool) (idx : Nat)
    (st : St) (h1 : idx = st.succ + st.fail + 1)
    (h3 : ∀ e ∈ st.events, eventBalance e) :
    ∀ e ∈ (stepSt tries ok idx st).events, eventBalance e := by
  unfold stepSt
  split <;>
  · intro e he
    simp only [List.mem_append, List.mem_cons, List.not_mem_nil, or_false] at he
    rcases he with he | rfl | rfl
    · exact h3 e he
    · exact h1
    · show idx = _ + _
      omega

theorem goRun_events_ok (tries : Nat) (ok : Nat → Nat → Bool) (d total : Nat)
    (stop : Nat → Bool) :
    ∀ rem idx k st, idx = st.succ + st.fail + 1 →
      st.processed = st.succ + st.fail →
      (∀ e ∈ st.events, eventBalance e) →
      ((∀ e ∈ (goRun tries ok d total stop rem idx k st).events, eventBalance e) ∧
        (goRun tries ok d total stop rem idx k st).processed =
          (goRun tries ok d total stop rem idx k st).succ +
            (goRun tries ok d total stop rem idx k st).fail) := by
  intro rem
  induction rem with
  | zero =>
    intro idx k st h1 h2 h3
    exact ⟨h3, h2⟩
  | succ m ih =>
    intro idx k st h1 h2 h3
    rw [goRun]
    cases hs : stop k with
    | true => exact ⟨h3, h2⟩
    | false =>
      simp only [Bool.false_eq_true, if_false]
      have h1' : idx + 1 =
          (stepSt tries ok idx st).succ + (stepSt tries ok idx st).fail + 1 := by
        rw [stepSt_succ_fail]; omega
      have h2' : (stepSt tries ok idx st).processed =
          (stepSt tries ok idx st).succ + (stepSt tries ok idx st).fail := by
        rw [stepSt_processed, stepSt_succ_fail]; omega
      have h3' := stepSt_events_ok tries ok idx st h1 h3
      by_cases ht : idx < total
      · simp only [if_pos ht]
        cases hs2 : stop (k + 1) with
        | true =>
          simp only [if_true]
          exact ih (idx + 1) (k + 2) _ h1' h2' h3'
        | false =>
          simp only [Bool.false_eq_true, if_false]
          exact ih (idx + 1) _ _ h1' h2' h3'
      · simp only [if_neg ht]
        exact ih (idx + 1) (k + 1) _ h1' h2' h3'

/-- Claim C1, counterexample to the claim as stated: in the run over one
recipient whose send succeeds, the progress event pushed right after
`self.processed_count = idx` (src/main.py:1672-1675) reports processed = 1
while succeeded = failed = 0, so at that emitted progress event
processed ≠ succeeded + failed. -/
theorem claim_C1_counterexample :
    ProgressEvent.processed 1 0 0 ∈
        (runModel 1 (fun _ _ => true) 0 stopNever 1).events ∧
      ¬(1 = 0 + 0) := by decide

/-- Claim C1, amended: at every succeeded/failed progress event and at Run
termination, processed = succeeded + failed; at every processed-counter
progress event (emitted before the attempt's outcome) processed =
succeeded + failed + 1. -/
theorem claim_C1_amended (tries : Nat) (ok : Nat → Nat → Bool) (d : Nat)
    (stop : Nat → Bool) (total : Nat) :
    (∀ e ∈ (runModel tries ok d stop total).events, eventBalance e) ∧
    (runModel tries ok d stop total).processed =
      (runModel tries ok d stop total).succ +
        (runModel tries ok d stop total).fail :=
  goRun_events_ok tries ok d total stop total 1 0 St.init rfl rfl
    (by intro e he; cases he)

theorem sendGo_allFail (ok : Nat → Bool) (hok : ∀ a, ok a = false) :
    ∀ left attempt, sendGo ok attempt (left + 1) = (false, attempt + left) := by
  intro left
  induction left with
  | zero => intro a; simp [sendGo, hok]
  | succ m ih =>
    intro a
    rw [sendGo, hok a]
    simp only [Bool.false_eq_true, if_false, Nat.succ_ne_zero, ite_false]
    rw [ih (a + 1)]
    congr 1
    omega

/-- A recipient whose attempts all fail consumes exactly `tries` attempts
and ends unsuccessful. -/
theorem send_allFail (tries : Nat) (ok : Nat → Bool) (h1 : 1 ≤ tries)
    (hok : ∀ a, ok a = false) : send_via_wa_me tries ok = (false, tries) := by
  cases tries with
  | zero => omega
  | succ t =>
    rw [send_via_wa_me, sendGo_allFail ok hok t 1]
    congr 1
    omega

/-- With the stop flag never set, the dispatch loop's ledger is exactly one
row per recipient, in input order, carrying that recipient's send result. -/
theorem goRun_noStop_ledger (tries : Nat) (ok : Nat → Nat → Bool)
    (d total : Nat) :
    ∀ rem idx k st,
      (goRun tries ok d total stopNever rem idx k st).ledger =
        st.ledger ++ (List.range' idx rem).map
          (fun i => (i, (send_via_wa_me tries (ok i)).1)) := by
  intro rem
  induction rem with
  | zero => intro idx k st; simp [goRun, finish]
  | succ m ih =>
    intro idx k st
    rw [goRun]
    simp only [stopNever, Bool.false_eq_true, if_false]
    rw [List.range'_succ]
    by_cases ht : idx < total
    · simp only [if_pos ht]
      rw [ih, stepSt_ledger]
      simp
    · simp only [if_neg ht]
      rw [ih, stepSt_ledger]
      simp

/-- Claim C5: with `maxAttemptsPerRecipient = tries ≥ 1` and a recipient
`i` of the run whose send attempts all fail, the dispatch performs exactly
`tries` attempts for `i` (no more, no fewer), the send is unsuccessful, and
the run's ledger records exactly one outcome row for `i`, with
succeeded = false. -/
theorem claim_C5 (tries total i d : Nat) (ok : Nat → Nat → Bool)
    (h1 : 1 ≤ tries) (h2 : ∀ a, ok i a = false) (h3 : 1 ≤ i)
    (h4 : i ≤ total) :
    (send_via_wa_me tries (ok i)).2 = tries ∧
    (send_via_wa_me tries (ok i)).1 = false ∧
    ((runModel tries ok d stopNever total).ledger.countP
      (fun e => e.1 == i)) = 1 ∧
    ∀ e ∈ (runModel tries ok d stopNever total).ledger,
      e.1 = i → e.2 = false := by
  have hsend := send_allFail tries (ok i) h1 h2
  have hledger := goRun_noStop_ledger tries ok d total total 1 0 St.init
  refine ⟨by rw [hsend], by rw [hsend], ?_, ?_⟩
  · rw [runModel, hledger]
    show ((List.range' 1 total).map
        (fun j => (j, (send_via_wa_me tries (ok j)).1))).countP
        (fun e => e.1 == i) = 1
    rw [List.countP_map]
    have : ((fun e : Nat × Bool => e.1 == i) ∘
        (fun j => (j, (send_via_wa_me tries (ok j)).1))) =
        (fun j => j == i) := rfl
    rw [this, ← List.count_eq_countP]
    exact List.count_eq_one_of_mem (List.nodup_range' 1 total)
      (List.mem_range'_1.2 ⟨h3, by omega⟩)
  · intro e he hi
    rw [runModel, hledger] at he
    simp only [St.init, List.nil_append, List.mem_map] at he
    obtain ⟨j, _, rfl⟩ := he
    simp only at hi
    rw [hi, hsend]

/-- Witness for C5: tries = 2, total = 3, recipient 2 always failing. -/
theorem claim_C5_witness :
    (runModel 2 okW 0 stopNever 3).ledger.countP (fun e => e.1 == 2) = 1 :=
  (claim_C5 2 3 2 0 okW (by decide) (fun a => rfl) (by decide)
    (by decide)).2.2.1

/-! ## Idempotence of normalization (C4) -/

theorem classifyToken_valid_good (t v : List Char)
    (h : classifyToken t = .valid v) : GoodNum v := by
  simp only [classifyToken] at h
  split_ifs at h with h0 h1 h2 h3 h4 h5 h6 h7 <;> cases h
  · refine ⟨fun c hc => (List.mem_filter.1 hc).2, h3, ?_⟩
    simpa [startsWith91] using h2
  · refine ⟨?_, ?_, rfl⟩
    · intro c hc
      simp only [List.mem_cons] at hc
      rcases hc with rfl | rfl | hc
      · decide
      · decide
      · exact (List.mem_filter.1 hc).2
    · simp [h6]

theorem validate_valid_good (toks : List (List Char)) :
    ∀ v ∈ (validate_numbers toks).1, GoodNum v := by
  induction toks with
  | nil => intro v hv; cases hv
  | cons t rest ih =>
    intro v hv
    cases h : classifyToken t <;> simp only [validate_numbers, h] at hv
    · exact ih v hv
    · rcases List.mem_cons.1 hv with rfl | hv
      · exact classifyToken_valid_good t v h
      · exact ih v hv
    · exact ih v hv

theorem goodNum_classify (v : List Char) (h : GoodNum v) :
    classifyToken v = .valid v := by
  obtain ⟨hd, hl, ht⟩ := h
  have hstrip : pyStrip v = v := by
    apply pyStrip_eq_self
    intro c hc
    cases hsp : isPySpace c with
    | false => rfl
    | true =>
      have hnd := isPySpace_not_digit c hsp
      rw [hd c hc] at hnd
      simp at hnd
  have hfilt : v.filter Char.isDigit = v := List.filter_eq_self.2 hd
  have hne : ¬(v = []) := by intro he; rw [he] at hl; simp at hl
  have hsw : startsWith91 v = true := by simp [startsWith91, ht]
  simp [classifyToken, hstrip, hfilt, hne, hsw, hl]

theorem validate_all_good (l : List (List Char))
    (h : ∀ v ∈ l, GoodNum v) : validate_numbers l = (l, []) := by
  induction l with
  | nil => rfl
  | cons v vs ih =>
    have hv := goodNum_classify v (h v (List.mem_cons_self v vs))
    have hrest := ih (fun w hw => h w (List.mem_cons_of_mem v hw))
    simp [validate_numbers, hv, hrest]

theorem splitComma_noComma (v : List Char) (h : ',' ∉ v) :
    splitComma v = [v] := by
  induction v with
  | nil => rfl
  | cons c cs ih =>
    have hc : ¬(c = ',') := fun he => h (he ▸ List.mem_cons_self c cs)
    have hcs : ',' ∉ cs := fun hm => h (List.mem_cons_of_mem c hm)
    rw [splitComma, if_neg hc, ih hcs]

theorem splitComma_append (v rest : List Char) (h : ',' ∉ v) :
    splitComma (v ++ ',' :: rest) = v :: splitComma rest := by
  induction v with
  | nil => simp [splitComma]
  | cons c cs ih =>
    have hc : ¬(c = ',') := fun he => h (he ▸ List.mem_cons_self c cs)
    have hcs : ',' ∉ cs := fun hm => h (List.mem_cons_of_mem c hm)
    rw [List.cons_append, splitComma, if_neg hc, ih hcs]

theorem splitComma_joinComma (l : List (List Char)) (hne : l ≠ [])
    (h : ∀ v ∈ l, ',' ∉ v) : splitComma (joinComma l) = l := by
  induction l with
  | nil => exact absurd rfl hne
  | cons v vs ih =>
    cases vs with
    | nil => exact splitComma_noComma v (h v (List.mem_cons_self v []))
    | cons w ws =>
      rw [joinComma, splitComma_append v _ (h v (List.mem_cons_self v _)),
        ih (by simp) (fun u hu => h u (List.mem_cons_of_mem v hu))]

theorem goodNum_noComma (v : List Char) (h : GoodNum v) : ',' ∉ v := by
  intro hm
  have := h.1 ',' hm
  simp at this

/-- Claim C4: normalization is idempotent on its own valid output:
re-normalizing the comma-joined valid list of a first normalization returns
the same valid list and an empty invalid list. -/
theorem claim_C4 (s : List Char) :
    validate_numbers_str (joinComma (validate_numbers_str s).1) =
      ((validate_numbers_str s).1, []) := by
  have hg : ∀ v ∈ (validate_numbers_str s).1, GoodNum v :=
    validate_valid_good (splitComma s)
  by_cases hne : (validate_numbers_str s).1 = []
  · rw [hne]; rfl
  · have hne' : (validate_numbers (splitComma s)).1 ≠ [] := hne
    have hg' : ∀ v ∈ (validate_numbers (splitComma s)).1, GoodNum v := hg
    unfold validate_numbers_str
    rw [splitComma_joinComma _ hne'
      (fun v hv => goodNum_noComma v (hg' v hv))]
    exact validate_all_good _ hg'

/-! ## Cancellation during the inter-send delay (C6) -/

theorem delayTicks_stopAfter (T : Nat) :
    ∀ d k, k ≤ T → T < k + d →
      delayTicks (stopAfter T) k d = (T - k, T + 1) := by
  intro d
  induction d with
  | zero => intro k h1 h2; omega
  | succ m ih =>
    intro k h1 h2
    rw [delayTicks]
    by_cases h : T ≤ k
    · have he : T = k := by omega
      simp [stopAfter, h, he]
    · have hlt : ¬(stopAfter T k = true) := by
        simp [stopAfter]; omega
      rw [if_neg hlt, ih (k + 1) (by omega) (by omega)]
      simp
      omega

example :
    goRun 1 okTrue 3 2 (stopAfter 2) 2 1 0 St.init =
      { processed := 1, succ := 1, fail := 0,
        events := [.processed 1 0 0, .succeeded 1 1 0],
        ledger := [(1, true)], sleeps := [0],
        terminal := .cancelled } := by decide

/-- Claim C6: from any loop configuration (current recipient `idx < total`,
next read index `k`, state `st`), if the cancellation flag becomes true
during the inter-send delay after `idx` — i.e. at a read `T` with
`k + 2 ≤ T < k + 2 + d` (`k` is the top-of-loop read, `k + 1` the pre-delay
read, `k + 2, …` the delay's per-tick reads) — then the delay is cut short
(`T - (k + 2) < d` sleeps instead of `d`, and none after the flag reads
true), no send attempt is started for any remaining recipient (the ledger
grows by exactly the one row for `idx`), and the Run terminates Cancelled. -/
theorem claim_C6 (tries d total idx k T : Nat) (ok : Nat → Nat → Bool)
    (st : St) (h1 : idx < total) (h2 : k + 2 ≤ T) (h3 : T < k + 2 + d) :
    (goRun tries ok d total (stopAfter T) (total + 1 - idx) idx k st).terminal =
        Terminal.cancelled ∧
    (goRun tries ok d total (stopAfter T) (total + 1 - idx) idx k st).ledger =
        st.ledger ++ [(idx, (send_via_wa_me tries (ok idx)).1)] ∧
    (goRun tries ok d total (stopAfter T) (total + 1 - idx) idx k st).sleeps =
        st.sleeps ++ [T - (k + 2)] ∧
    T - (k + 2) < d := by
  obtain ⟨m, hm⟩ : ∃ m, total + 1 - idx = m + 1 + 1 :=
    ⟨total - idx - 1, by omega⟩
  rw [hm, goRun]
  have hk : ¬(stopAfter T k = true) := by simp [stopAfter]; omega
  have hk1 : ¬(stopAfter T (k + 1) = true) := by simp [stopAfter]; omega
  rw [if_neg hk, if_pos h1, if_neg hk1,
    delayTicks_stopAfter T d (k + 2) h2 (by omega)]
  rw [goRun]
  have hT1 : stopAfter T (T + 1) = true := by simp [stopAfter]
  rw [if_pos hT1]
  unfold finish
  have hT2 : stopAfter T (T + 2) = true := by simp [stopAfter]
  rw [if_pos hT2]
  refine ⟨rfl, ?_, ?_, by omega⟩
  · simp [stepSt_ledger]
  · simp [stepSt_sleeps]

/-- Witness for C6 at a concrete configuration: two recipients, the flag
set at read 2 (the first delay tick after recipient 1). -/
theorem claim_C6_witness :
    (goRun 1 okTrue 3 2 (stopAfter 2) 2 1 0 St.init).terminal =
      Terminal.cancelled :=
  (claim_C6 1 3 2 1 0 2 okTrue St.init (by decide) (by decide)
    (by decide)).1

/-! ## Run summaries at termination (C7) -/

/-- Claim C7, counterexample to the claim as stated: a Run cancelled at the
first top-of-loop check terminates Cancelled, and `sending_complete(False)`
does not call `save_session_stats` (src/main.py:1738-1781: the call sits
only under `if success:`), so no RunSummary is appended — the history stays
empty instead of gaining exactly one entry. -/
theorem claim_C7_counterexample :
    (runModel 1 okTrue 0 (fun _ => true) 1).terminal = Terminal.cancelled ∧
      finalizeRun (runModel 1 okTrue 0 (fun _ => true) 1) ⟨1, 0, 0, 0⟩ [] =
        [] := by decide

/-- Claim C7, amended: at Run termination, if the Run reached Completed
then exactly one RunSummary is appended to the bounded history (its length
becomes min (previous + 1) 50 and it stays a suffix of the appended list);
if the Run reached Cancelled (`sending_complete(False)`, which also covers
the Failed paths), the history is left unchanged. -/
theorem claim_C7_amended (r : RunOut) (stats : SessionStats)
    (hist : List SessionStats) :
    (r.terminal = Terminal.completed ∧
      (finalizeRun r stats hist).length = min (hist.length + 1) 50 ∧
      List.IsSuffix (finalizeRun r stats hist) (hist ++ [stats])) ∨
    (r.terminal = Terminal.cancelled ∧ finalizeRun r stats hist = hist) := by
  cases ht : r.terminal with
  | completed =>
    left
    refine ⟨rfl, ?_, ?_⟩
    · unfold finalizeRun save_session_stats
      rw [if_pos ht]
      simp only [List.length_drop, List.length_append, List.length_singleton]
      omega
    · unfold finalizeRun save_session_stats
      rw [if_pos ht]
      exact List.drop_suffix _ _
  | cancelled =>
    right
    refine ⟨rfl, ?_⟩
    unfold finalizeRun
    rw [if_neg (by simp [ht])]

end WaSender
